import Mathlib

/-!
Verification development for the command-dispatch pipeline
(src/packages/extension/index.ts) and the results-panel state machine
(src/packages/plugins/connection-manager/ui/screens/Results/Main.tsx)
of vscode-sqltools.

Host side: commands are dispatched through the closure installed by
decorateAndRegisterCommand.  The dispatch fires the will-run emitter
(whose sole subscriber is onWillRunCommandHandler, running the
registered before-hooks), invokes the handler, awaits a thenable
result, fires the did-run-successfully emitter (whose sole subscriber
runs the after-success hooks) and returns the result.  We embed one
dispatch as a pure function producing an event trace together with the
value or error that the original caller observes.  Hooks are
identified by opaque numeric ids; the registries map a command name to
the ids in registration order, as built by addHook.  Logging on the
host side is not observable to callers or hooks and is not modelled.
-/

namespace Extension

/-- JS values flowing through dispatch: arguments and results are opaque
data whose identity matters to the dispatcher, plus the two JS absence
values undefined and null, which the thenable shape-check of the dispatch
treats differently: typeof result is the string undefined only for undef
(short-circuiting the check), while property access on null throws. -/
inductive JsVal where
  | undef
  | null
  | num (n : Int)
  | str (s : String)
  | boolean (b : Bool)
deriving DecidableEq, Repr

/-- Event fired on the will-run emitter: command name and args, built at
invocation time, before the handler runs. -/
structure CommandEvent where
  command : String
  args : List JsVal
deriving DecidableEq, Repr

/-- Event fired on the did-run-successfully emitter: command, args and the
settled result of the handler. -/
structure CommandSuccessEvent where
  command : String
  args : List JsVal
  result : JsVal
deriving DecidableEq, Repr

/-- Observable steps of one dispatch, in order of occurrence.  hookBefore
and hookAfter record an invocation of a registered hook (by id, with the
event it receives); handlerRun marks the call of the raw handler; awaited
marks the dispatch suspending on a thenable handler result; successFired
records the did-run-successfully emitter firing. -/
inductive DispatchEvent where
  | hookBefore (id : Nat) (evt : CommandEvent)
  | handlerRun
  | awaited
  | successFired (evt : CommandSuccessEvent)
  | hookAfter (id : Nat) (evt : CommandSuccessEvent)
deriving DecidableEq, Repr

instance {ε α : Type} [DecidableEq ε] [DecidableEq α] :
    DecidableEq (Except ε α) := fun a b =>
  match a, b with
  | .ok x, .ok y =>
    if h : x = y then .isTrue (congrArg Except.ok h)
    else .isFalse fun he => h (Except.ok.inj he)
  | .error x, .error y =>
    if h : x = y then .isTrue (congrArg Except.error h)
    else .isFalse fun he => h (Except.error.inj he)
  | .ok _, .error _ => .isFalse fun he => Except.noConfusion he
  | .error _, .ok _ => .isFalse fun he => Except.noConfusion he

/-- Result of the raw handler when it does not throw: either a plain
value (no then or catch member, so the dispatch does not await) or a
thenable that settles to a value or rejects with an error. -/
inductive HandlerResult where
  | plain (v : JsVal)
  | pending (outcome : Except String JsVal)
deriving DecidableEq, Repr

/-- Duck-typed thenable detection on a plain (non-promise) handler return
value.  The source evaluates, in order: typeof result differs from the
string undefined, then typeof result.then (and possibly result.catch) is
the string function.  For undef the first conjunct is false and the check
stops; for null the first conjunct is true and the property access
result.then throws a TypeError inside the async closure; for every other
modelled value the access is safe and finds no function. -/
def thenableCheckCrashes : JsVal → Bool
  | .null => true
  | _ => false

/-- Hook registries as built by addHook: a command name maps to the hook
ids attached to it, in registration order.  The JS object with missing
keys is modelled as a total function defaulting to the empty list. -/
def emptyHooks : String → List Nat := fun _ => []

/-- addHook lazily creates the per-command list and appends the handler,
mirroring this.willRunCommandHooks and didRunCommandSuccessfullyHooks
bookkeeping in SQLToolsExtension.addHook. -/
def addHook (reg : String → List Nat) (command : String) (id : Nat) :
    String → List Nat :=
  fun c => if c = command then reg c ++ [id] else reg c

/-- onWillRunCommandHandler: returns early when evt.command is falsy or no
hooks are attached, otherwise invokes each attached before-hook in order
with the event.  The early return on an empty hook list is observationally
the empty trace, so both guards collapse to the map below. -/
def onWillRunCommandHandler (willRunCommandHooks : String → List Nat)
    (evt : CommandEvent) : List DispatchEvent :=
  if evt.command = "" then []
  else (willRunCommandHooks evt.command).map fun id => .hookBefore id evt

/-- onDidRunCommandSuccessfullyHandler: same shape as the will-run
subscriber, over the after-success registry. -/
def onDidRunCommandSuccessfullyHandler
    (didRunCommandSuccessfullyHooks : String → List Nat)
    (evt : CommandSuccessEvent) : List DispatchEvent :=
  if evt.command = "" then []
  else (didRunCommandSuccessfullyHooks evt.command).map fun id => .hookAfter id evt

/-- One invocation of the async closure installed by
decorateAndRegisterCommand: fire will-run, call the handler (which may
throw), run the thenable shape-check on the returned value — the check
itself throws a TypeError on a plain null return, which rejects the
dispatch before the success emitter fires — await a thenable result
(which may reject), fire did-run-successfully on success, and return the
result.  A thrown error or rejection escapes the closure, so the second
component is the outcome the original caller of the command observes. -/
def decoratedCommandInvoke (willRunCommandHooks : String → List Nat)
    (didRunCommandSuccessfullyHooks : String → List Nat)
    (command : String) (args : List JsVal)
    (handler : List JsVal → Except String HandlerResult) :
    List DispatchEvent × Except String JsVal :=
  let pre := onWillRunCommandHandler willRunCommandHooks
    { command := command, args := args }
  match handler args with
  | .error e => (pre ++ [.handlerRun], .error e)
  | .ok (.plain v) =>
    if thenableCheckCrashes v then
      (pre ++ [.handlerRun], .error "TypeError")
    else
      let evt : CommandSuccessEvent :=
        { command := command, args := args, result := v }
      (pre ++ [.handlerRun, .successFired evt]
         ++ onDidRunCommandSuccessfullyHandler didRunCommandSuccessfullyHooks evt,
       .ok v)
  | .ok (.pending (.ok v)) =>
    let evt : CommandSuccessEvent :=
      { command := command, args := args, result := v }
    (pre ++ [.handlerRun, .awaited, .successFired evt]
       ++ onDidRunCommandSuccessfullyHandler didRunCommandSuccessfullyHooks evt,
     .ok v)
  | .ok (.pending (.error e)) => (pre ++ [.handlerRun, .awaited], .error e)

/-- Specification-side description of the before-hook segment: every id
registered for the command, in registration order, invoked with the
command event. -/
def beforeTrace (willRunCommandHooks : String → List Nat) (c : String)
    (args : List JsVal) : List DispatchEvent :=
  (willRunCommandHooks c).map fun id => .hookBefore id { command := c, args := args }

/-- Specification-side description of the after-success-hook segment. -/
def afterTrace (didRunCommandSuccessfullyHooks : String → List Nat) (c : String)
    (args : List JsVal) (v : JsVal) : List DispatchEvent :=
  (didRunCommandSuccessfullyHooks c).map fun id =>
    .hookAfter id { command := c, args := args, result := v }

/-- Recognizer for events that may only occur after a successful handler:
an after-hook invocation or the success emitter firing. -/
def isAfterEvent : DispatchEvent → Bool
  | .hookAfter _ _ => true
  | .successFired _ => true
  | _ => false

/-- Recognizer for before-hook invocations in a trace. -/
def isBeforeEvent : DispatchEvent → Bool
  | .hookBefore _ _ => true
  | _ => false

/-!
Plugin loading (SQLToolsExtension.loadPlugins).  A plugin is modelled by
the fields loadPlugins reads: name, optional extensionId, optional type
tag, and whether its register call throws (the register side effects on
the extension object are irrelevant to the claims and abstracted to this
flag).  loadPlugins iterates the drained queue; for each plugin it calls
register inside a try, then records a truthy extensionId under the truthy
type tag (default general), deduplicated; a throw is routed to
errorHandler tagged with the plugin name and iteration continues.
-/

/-- Plugin as seen by loadPlugins.  The source field name is type, a Lean
keyword, rendered here as type'. -/
structure Plugin where
  name : String
  extensionId : Option String
  type' : Option String
  registerThrows : Bool
deriving DecidableEq, Repr

/-- Observable state loadPlugins touches: the extPlugins map (JS object
modelled as a total function defaulting to the empty list), the errors
reported through errorHandler, and the register invocations in order. -/
structure ExtPluginsState where
  extPlugins : String → List String
  errors : List String
  registerCalls : List String

/-- Type tag under which an extensionId is recorded: plugin.type when
truthy, else general. -/
def pluginTag (p : Plugin) : String :=
  match p.type' with
  | some t => if t = "" then "general" else t
  | none => "general"

/-- Truthiness of the optional extensionId field: present and non-empty. -/
def extensionIdTruthy (p : Plugin) : Bool :=
  match p.extensionId with
  | some id => id ≠ ""
  | none => false

/-- Record an id under a tag: lazily create the list, append only when the
id is not yet present. -/
def recordExtPlugin (m : String → List String) (tag id : String) :
    String → List String :=
  fun t => if t = tag then (if id ∈ m tag then m tag else m tag ++ [id]) else m t

/-- One iteration of the loadPlugins loop over a single plugin: register is
invoked; when it throws the error is reported and the id bookkeeping is
skipped; otherwise a truthy extensionId is recorded under the plugin tag. -/
def loadOnePlugin (s : ExtPluginsState) (p : Plugin) : ExtPluginsState :=
  let s := { s with registerCalls := s.registerCalls ++ [p.name] }
  if p.registerThrows then
    { s with errors := s.errors ++ ["Error loading plugin " ++ p.name] }
  else
    match p.extensionId with
    | some id =>
      if id = "" then s
      else { s with extPlugins := recordExtPlugin s.extPlugins (pluginTag p) id }
    | none => s

/-- loadPlugins over a drained queue, starting from the current state. -/
def loadPlugins (s : ExtPluginsState) (queue : List Plugin) : ExtPluginsState :=
  queue.foldl loadOnePlugin s

/-- Fresh extension state: no recorded ids, no errors, no register calls. -/
def emptyExtState : ExtPluginsState :=
  { extPlugins := fun _ => [], errors := [], registerCalls := [] }

end Extension

/-!
Results panel (Main.tsx).  The screen keeps a QueryResultsState behind a
reducer; inbound webview messages are handled by messagesHandler, and the
user-facing handlers exportResults, reRunQuery and changePage send call
messages back to the host and dispatch reducer actions.  We embed each
handler as a function from the current state (and its explicit inputs) to
the ordered list of observable effects it performs — reducer dispatches,
outbound messages and log lines — plus whether it raised a TypeError.
Fields the handlers never read (cols, results, total, label) are omitted
from the result model; the MenuActions enum lives in a constants module
outside src/ and is modelled as an opaque inductive, since only
membership and the JSON option matter.  Undefined and null are both
rendered as none where only their falsiness is observable.
-/

namespace ResultsPanel

/-- Query parameters are opaque data replayed verbatim; a string stands in
for the payload. -/
abbrev QueryParams := String

/-- Fields of a result tab that the verified handlers read. -/
structure IResult where
  requestId : Nat
  resultId : String
  connId : String
  baseQuery : String
  query : Option String
  queryType : Option String
  queryParams : Option QueryParams
  pageSize : Option Nat
  page : Option Nat
  error : Option String
  messages : List String
deriving DecidableEq, Repr

/-- Panel state managed by the reducer. -/
structure QueryResultsState where
  loading : Bool
  error : Option IResult
  resultTabs : List IResult
  activeTab : Nat
deriving DecidableEq, Repr

/-- Initial state of the screen. -/
def initialState : QueryResultsState :=
  { loading := true, error := none, resultTabs := [], activeTab := 0 }

/-- Partial state used as the payload of the merging actions: a present
field overwrites, an absent field keeps the prior value, mirroring the JS
object spread.  The error field is itself optional data, hence the two
option layers: outer = key present in the payload, inner = the value. -/
structure StatePatch where
  loading : Option Bool := none
  error : Option (Option IResult) := none
  resultTabs : Option (List IResult) := none
  activeTab : Option Nat := none
deriving DecidableEq, Repr

/-- Reducer actions.  RESULTS_RECEIVED may be dispatched without a payload
(resetRequest does exactly that), in which case the spread is a no-op. -/
inductive ACTION where
  | RESET
  | RESULTS_RECEIVED (payload : Option StatePatch)
  | TOGGLE_TAB (payload : Nat)
  | SET (payload : StatePatch)
deriving DecidableEq, Repr

/-- Object spread of a patch over the state. -/
def spreadPatch (s : QueryResultsState) (p : StatePatch) : QueryResultsState :=
  { loading := p.loading.getD s.loading,
    error := p.error.getD s.error,
    resultTabs := p.resultTabs.getD s.resultTabs,
    activeTab := p.activeTab.getD s.activeTab }

/-- The reducer of Main.tsx.  The default branch of the source throws; the
action type here is exactly the four declared actions, so that branch has
no counterpart. -/
def reducer (state : QueryResultsState) (action : ACTION) : QueryResultsState :=
  match action with
  | .RESET => initialState
  | .RESULTS_RECEIVED payload =>
    match payload with
    | none => state
    | some p => spreadPatch state p
  | .TOGGLE_TAB payload => { state with activeTab := payload }
  | .SET payload => spreadPatch state payload

/-- Action dispatched by the set helper. -/
def setAction (payload : StatePatch) : ACTION := .SET payload

/-- Action dispatched by resetRequest: RESULTS_RECEIVED with no payload,
exactly as written in the source. -/
def resetRequest : ACTION := .RESULTS_RECEIVED none

/-- Action dispatched by resultsReceived. -/
def resultsReceived (changes : StatePatch) : ACTION :=
  .RESULTS_RECEIVED (some changes)

/-- Values of the MenuActions enum (constants module, outside src/). -/
inductive MenuAction where
  | reRunQueryOption
  | saveCSVOption
  | saveJSONOption
deriving DecidableEq, Repr

/-- Options object of an outbound call: every key that any call site may
put in the second argument, absent keys as none. -/
structure CallOpts where
  requestId : Option Nat := none
  resultId : Option String := none
  baseQuery : Option String := none
  connId : Option String := none
  page : Option Nat := none
  pageSize : Option Nat := none
  fileType : Option String := none
deriving DecidableEq, Repr

/-- Arguments of an outbound call message. -/
inductive CallArg where
  | qp (v : Option QueryParams)
  | qstr (v : Option String)
  | opts (o : CallOpts)
deriving DecidableEq, Repr

/-- Outbound webview messages the screen can send. -/
inductive Outbound where
  | call (command : String) (args : Option (List CallArg))
  | receivedState (state : QueryResultsState)
  | viewReady
  | syncConsoleMessages (msgs : List String)
deriving DecidableEq, Repr

/-- Observable effects of one handler invocation, in program order. -/
inductive PanelEffect where
  | dispatched (a : ACTION)
  | sent (m : Outbound)
  | messageLogged (action : String)
  | warnLogged (action : String)
deriving DecidableEq, Repr

/-- Result of running a handler: its effects, and the TypeError it raised,
if any (effects performed before the raise are kept). -/
structure HandlerRun where
  effects : List PanelEffect
  threw : Option String
deriving DecidableEq, Repr

/-- Namespace prefix for commands, process.env.EXT_NAMESPACE. -/
def EXT_NAMESPACE : String := "sqltools"

/-- JS template interpolation of a possibly undefined string. -/
def jsTemplate (v : Option String) : String :=
  match v with
  | some s => s
  | none => "undefined"

/-- Truthiness of an optional string. -/
def strTruthy (v : Option String) : Bool :=
  match v with
  | some s => s ≠ ""
  | none => false

/-- The pageSize or 50 pattern: JS gives 50 for undefined and for 0. -/
def jsOr50 (v : Option Nat) : Nat :=
  match v with
  | some n => if n = 0 then 50 else n
  | none => 50

/-- Truthiness of the error field of a result row. -/
def errTruthy (r : IResult) : Bool :=
  match r.error with
  | some e => e ≠ ""
  | none => false

/-- Query options descriptor rebuilt from the active tab on every call. -/
def getCurrentQueryOptions (activeResult : IResult) : CallOpts :=
  { requestId := some activeResult.requestId,
    resultId := some activeResult.resultId,
    baseQuery := some activeResult.baseQuery,
    connId := some activeResult.connId }

/-- Active result lookup: resultTabs indexed at activeTab, undefined when
out of bounds. -/
def getCurrentResult (s : QueryResultsState) : Option IResult :=
  s.resultTabs.get? s.activeTab

/-- exportResults: return silently without an active result; otherwise send
a single saveResults call whose options are the query-options descriptor
plus a fileType derived from the menu choice (json for the JSON option,
csv for any other member of MenuActions, undefined for anything else,
such as the click event object of the footer button).  No reducer action
is dispatched. -/
def exportResults (s : QueryResultsState) (choice : Option MenuAction) :
    HandlerRun :=
  match getCurrentResult s with
  | none => { effects := [], threw := none }
  | some activeResult =>
    { effects := [.sent (.call (EXT_NAMESPACE ++ ".saveResults")
        (some [.opts { getCurrentQueryOptions activeResult with
          fileType :=
            match choice with
            | some c => some (if c = .saveJSONOption then "json" else "csv")
            | none => none }]))],
      threw := none }

/-- reRunQuery: return silently without an active result; with a truthy
queryType replay the typed command with queryParams and the query-options
descriptor extended with page and pageSize, else replay executeQuery with
the raw query string; in both branches the call is sent first and then
loading is set. -/
def reRunQuery (s : QueryResultsState) : HandlerRun :=
  match getCurrentResult s with
  | none => { effects := [], threw := none }
  | some activeResult =>
    if strTruthy activeResult.queryType then
      { effects := [
          .sent (.call (EXT_NAMESPACE ++ "." ++ jsTemplate activeResult.queryType)
            (some [.qp activeResult.queryParams,
                   .opts { getCurrentQueryOptions activeResult with
                           page := activeResult.page,
                           pageSize := some (jsOr50 activeResult.pageSize) }])),
          .dispatched (setAction { loading := some true })],
        threw := none }
    else
      { effects := [
          .sent (.call (EXT_NAMESPACE ++ ".executeQuery")
            (some [.qstr activeResult.query,
                   .opts (getCurrentQueryOptions activeResult)])),
          .dispatched (setAction { loading := some true })],
        threw := none }

/-- changePage: set loading first, then read the active tab directly from
state.resultTabs at activeTab with no guard — when no tab exists the
property accesses on undefined raise a TypeError after the set dispatch
and before any message is sent.  With an active tab, send one call whose
options carry page, pageSize or 50, and requestId only. -/
def changePage (s : QueryResultsState) (page : Nat) : HandlerRun :=
  let setLoading := PanelEffect.dispatched (setAction { loading := some true })
  match s.resultTabs.get? s.activeTab with
  | none => { effects := [setLoading], threw := some "TypeError" }
  | some activeResult =>
    { effects := [setLoading,
        .sent (.call (EXT_NAMESPACE ++ "." ++ jsTemplate activeResult.queryType)
          (some [.qp activeResult.queryParams,
                 .opts { page := some page,
                         pageSize := some (jsOr50 activeResult.pageSize),
                         requestId := some activeResult.requestId }]))],
      threw := none }

/-- messagesHandler: return at once on a falsy action (the message log line
included); otherwise log the receipt and branch — queryResults merges the
payload rows with activeTab 0, loading false and the first row with a
truthy error field; reset dispatches resetRequest; getState replies with
the current state; anything else is logged at warning level. -/
def messagesHandler (st : QueryResultsState) (action : Option String)
    (payload : List IResult) : List PanelEffect :=
  match action with
  | none => []
  | some a =>
    if a = "" then []
    else
      .messageLogged a ::
      (if a = "queryResults" then
        [.dispatched (resultsReceived
          { resultTabs := some payload,
            activeTab := some 0,
            loading := some false,
            error := some (payload.find? fun r => errTruthy r) })]
      else if a = "reset" then
        [.dispatched resetRequest]
      else if a = "getState" then
        [.sent (.receivedState st)]
      else
        [.warnLogged a])

/-- Fold the reducer over the actions a handler dispatched, ignoring the
other effects: the state the panel holds after the handler ran. -/
def applyEffects (st : QueryResultsState) (effs : List PanelEffect) :
    QueryResultsState :=
  effs.foldl (fun s e =>
    match e with
    | .dispatched a => reducer s a
    | _ => s) st

/-- Number of outbound call messages in an effect list. -/
def countCallMsgs (effs : List PanelEffect) : Nat :=
  effs.countP fun e =>
    match e with
    | .sent (.call _ _) => true
    | _ => false

/-- Number of dispatched reducer actions in an effect list. -/
def countDispatched (effs : List PanelEffect) : Nat :=
  effs.countP fun e =>
    match e with
    | .dispatched _ => true
    | _ => false

end ResultsPanel

namespace Extension

theorem onWillRun_eq_beforeTrace (w : String → List Nat) (c : String)
    (args : List JsVal) (hc : c ≠ "") :
    onWillRunCommandHandler w { command := c, args := args } =
      beforeTrace w c args := by
  simp [onWillRunCommandHandler, beforeTrace, hc]

theorem onDidRun_eq_afterTrace (a : String → List Nat) (c : String)
    (args : List JsVal) (v : JsVal) (hc : c ≠ "") :
    onDidRunCommandSuccessfullyHandler a { command := c, args := args, result := v } =
      afterTrace a c args v := by
  simp [onDidRunCommandSuccessfullyHandler, afterTrace, hc]

theorem mem_onWillRun_exists_hook (w : String → List Nat) (evt : CommandEvent)
    (ev : DispatchEvent) (hev : ev ∈ onWillRunCommandHandler w evt) :
    ∃ id, ev = .hookBefore id evt := by
  unfold onWillRunCommandHandler at hev
  split at hev
  · simp at hev
  · rcases List.mem_map.1 hev with ⟨id, _, rfl⟩
    exact ⟨id, rfl⟩

theorem mem_onDidRun_exists_hook (a : String → List Nat)
    (evt : CommandSuccessEvent) (ev : DispatchEvent)
    (hev : ev ∈ onDidRunCommandSuccessfullyHandler a evt) :
    ∃ id, ev = .hookAfter id evt := by
  unfold onDidRunCommandSuccessfullyHandler at hev
  split at hev
  · simp at hev
  · rcases List.mem_map.1 hev with ⟨id, _, rfl⟩
    exact ⟨id, rfl⟩

theorem awaited_not_mem_onWillRun (w : String → List Nat) (evt : CommandEvent) :
    DispatchEvent.awaited ∉ onWillRunCommandHandler w evt := by
  intro hmem
  rcases mem_onWillRun_exists_hook _ _ _ hmem with ⟨id, hid⟩
  exact DispatchEvent.noConfusion hid

theorem awaited_not_mem_onDidRun (a : String → List Nat)
    (evt : CommandSuccessEvent) :
    DispatchEvent.awaited ∉ onDidRunCommandSuccessfullyHandler a evt := by
  intro hmem
  rcases mem_onDidRun_exists_hook _ _ _ hmem with ⟨id, hid⟩
  exact DispatchEvent.noConfusion hid

/-- C1 (amended): for every command with a nonempty name, with N
before-hooks and M after-success hooks registered for it, one dispatch
produces a trace that starts with all N before-hooks in registration
order, then the handler invocation, and the after segment — the success
event followed by all M after-hooks in registration order, strictly after
the result is available — exactly in the two cases where the handler
completes without throwing and the dispatch survives: a plain return
value other than null, or a pending result that resolves.  A handler that
throws, a pending result that rejects, and a plain null return (on which
the thenable shape-check itself throws a TypeError) all end the trace at
the handler step with no after segment.  The original claim fails both
for the empty command name, where the hook subscribers return early, and
for a null-returning handler, which completes without throwing yet gets
no after-hooks. -/
theorem dispatch_runs_hooks_in_order (w a : String → List Nat) (c : String)
    (args : List JsVal) (handler : List JsVal → Except String HandlerResult)
    (hc : c ≠ "") :
    (∀ v, handler args = .ok (.plain v) → v ≠ .null →
       (decoratedCommandInvoke w a c args handler).1 =
         beforeTrace w c args ++
           [.handlerRun, .successFired { command := c, args := args, result := v }] ++
           afterTrace a c args v) ∧
    (∀ v, handler args = .ok (.pending (.ok v)) →
       (decoratedCommandInvoke w a c args handler).1 =
         beforeTrace w c args ++
           [.handlerRun, .awaited,
            .successFired { command := c, args := args, result := v }] ++
           afterTrace a c args v) ∧
    (∀ e, handler args = .error e →
       (decoratedCommandInvoke w a c args handler).1 =
         beforeTrace w c args ++ [.handlerRun]) ∧
    (∀ e, handler args = .ok (.pending (.error e)) →
       (decoratedCommandInvoke w a c args handler).1 =
         beforeTrace w c args ++ [.handlerRun, .awaited]) ∧
    (handler args = .ok (.plain .null) →
       (decoratedCommandInvoke w a c args handler).1 =
         beforeTrace w c args ++ [.handlerRun]) := by
  have hw := onWillRun_eq_beforeTrace w c args hc
  refine ⟨fun v h hv => ?_, fun v h => ?_, fun e h => ?_, fun e h => ?_, fun h => ?_⟩
  · have hcr : thenableCheckCrashes v = false := by
      cases v <;> simp [thenableCheckCrashes] at hv ⊢
    simp [decoratedCommandInvoke, h, hcr, hw, onDidRun_eq_afterTrace a c args v hc]
  · simp [decoratedCommandInvoke, h, hw, onDidRun_eq_afterTrace a c args v hc]
  · simp [decoratedCommandInvoke, h, hw]
  · simp [decoratedCommandInvoke, h, hw]
  · simp [decoratedCommandInvoke, h, thenableCheckCrashes, hw]

/-- C1 witness: one before-hook and one after-hook registered for a
command named run; a dispatch of a plain-valued handler yields exactly
the claimed trace. -/
theorem dispatch_runs_hooks_in_order_witness :
    (decoratedCommandInvoke (addHook emptyHooks "run" 0) (addHook emptyHooks "run" 1)
        "run" [JsVal.num 2] (fun _ => .ok (.plain (.num 5)))).1 =
      beforeTrace (addHook emptyHooks "run" 0) "run" [JsVal.num 2] ++
        [.handlerRun, .successFired { command := "run", args := [JsVal.num 2], result := .num 5 }] ++
        afterTrace (addHook emptyHooks "run" 1) "run" [JsVal.num 2] (.num 5) := by
  exact (dispatch_runs_hooks_in_order (addHook emptyHooks "run" 0)
    (addHook emptyHooks "run" 1) "run" [JsVal.num 2]
    (fun _ => .ok (.plain (.num 5))) (by decide)).1 (.num 5) rfl (by decide)

/-- C1 counterexample: two concrete failures of the claim as stated.
First, a before-hook registered for the empty command name is never
invoked by a dispatch of that command — the registry holds one hook, yet
the trace contains zero before-hook events.  Second, for the nonempty
command run with one after-hook registered, a handler that completes
without throwing and returns plain null gets no after-hook and no
success event — the trace contains zero after events — because the
thenable shape-check throws first. -/
theorem hook_skipped_for_empty_command_name :
    addHook emptyHooks "" 0 "" = [0] ∧
    (decoratedCommandInvoke (addHook emptyHooks "" 0) emptyHooks "" []
        (fun _ => .ok (.plain .undef))).1.countP isBeforeEvent = 0 ∧
    addHook emptyHooks "run" 1 "run" = [1] ∧
    (decoratedCommandInvoke emptyHooks (addHook emptyHooks "run" 1) "run" []
        (fun _ => .ok (.plain .null))).1.countP isAfterEvent = 0 := by
  exact ⟨rfl, rfl, rfl, rfl⟩

/-- C2: a dispatch whose handler throws synchronously, or returns a
pending computation that rejects, propagates exactly that failure to the
original caller, never fires the success emitter and invokes no
after-success hook. -/
theorem failed_dispatch_suppresses_after_hooks (w a : String → List Nat)
    (c : String) (args : List JsVal)
    (handler : List JsVal → Except String HandlerResult) (e : String)
    (hfail : handler args = .error e ∨ handler args = .ok (.pending (.error e))) :
    (decoratedCommandInvoke w a c args handler).2 = .error e ∧
    ∀ ev ∈ (decoratedCommandInvoke w a c args handler).1, isAfterEvent ev = false := by
  rcases hfail with h | h <;>
  · refine ⟨by simp [decoratedCommandInvoke, h], fun ev hev => ?_⟩
    simp [decoratedCommandInvoke, h] at hev
    rcases hev with hev | hev
    · rcases mem_onWillRun_exists_hook _ _ _ hev with ⟨id, rfl⟩
      rfl
    · first
      | (subst hev; rfl)
      | (rcases hev with hev | hev <;> (subst hev; rfl))

/-- C2 witness: a handler that rejects with an error named boom reaches
the caller as that error and produces no after event, even with hooks
registered. -/
theorem failed_dispatch_suppresses_after_hooks_witness :
    (decoratedCommandInvoke (addHook emptyHooks "run" 0) (addHook emptyHooks "run" 1)
        "run" [] (fun _ => .ok (.pending (.error "boom")))).2 = .error "boom" := by
  exact (failed_dispatch_suppresses_after_hooks (addHook emptyHooks "run" 0)
    (addHook emptyHooks "run" 1) "run" []
    (fun _ => .ok (.pending (.error "boom"))) "boom" (Or.inr rfl)).1

/-- C3 (amended): every dispatch whose handler completes without throwing
and survives the thenable shape-check fires the ran-successfully emitter
with the command, the args and the settled result: for a plain
non-pending value other than null the dispatch never suspends — the
trace has the success event immediately after the handler step and
contains no awaited marker — and the event carries that exact value; a
pending result that resolves fires the event with the resolved value.
The exception the counterexample forces: a handler returning plain null
completes without throwing, yet the shape-check throws a TypeError, the
event never fires and the dispatch rejects. -/
theorem success_event_carries_result (w a : String → List Nat) (c : String)
    (args : List JsVal) (handler : List JsVal → Except String HandlerResult) :
    (∀ v, handler args = .ok (.plain v) → v ≠ .null →
       (decoratedCommandInvoke w a c args handler).2 = .ok v ∧
       (decoratedCommandInvoke w a c args handler).1 =
         onWillRunCommandHandler w { command := c, args := args } ++
           [.handlerRun, .successFired { command := c, args := args, result := v }] ++
           onDidRunCommandSuccessfullyHandler a { command := c, args := args, result := v } ∧
       .awaited ∉ (decoratedCommandInvoke w a c args handler).1) ∧
    (∀ v, handler args = .ok (.pending (.ok v)) →
       (decoratedCommandInvoke w a c args handler).2 = .ok v ∧
       .successFired { command := c, args := args, result := v } ∈
         (decoratedCommandInvoke w a c args handler).1) ∧
    (handler args = .ok (.plain .null) →
       (decoratedCommandInvoke w a c args handler).2 = .error "TypeError" ∧
       ∀ ev ∈ (decoratedCommandInvoke w a c args handler).1,
         isAfterEvent ev = false) := by
  refine ⟨?_, ?_, ?_⟩
  · intro v h hv
    have hcr : thenableCheckCrashes v = false := by
      cases v <;> simp [thenableCheckCrashes] at hv ⊢
    refine ⟨by simp [decoratedCommandInvoke, h, hcr],
      by simp [decoratedCommandInvoke, h, hcr], ?_⟩
    simp [decoratedCommandInvoke, h, hcr, List.mem_append,
      awaited_not_mem_onWillRun, awaited_not_mem_onDidRun]
  · intro v h
    refine ⟨by simp [decoratedCommandInvoke, h], ?_⟩
    simp [decoratedCommandInvoke, h]
  · intro h
    refine ⟨by simp [decoratedCommandInvoke, h, thenableCheckCrashes], fun ev hev => ?_⟩
    simp [decoratedCommandInvoke, h, thenableCheckCrashes] at hev
    rcases hev with hev | hev
    · rcases mem_onWillRun_exists_hook _ _ _ hev with ⟨id, rfl⟩
      rfl
    · subst hev
      rfl

/-- C3 witness: a plain-valued handler fires the success event in the
same turn with the exact returned value, and a null-returning handler
rejects with a TypeError without firing it. -/
theorem success_event_carries_result_witness :
    (decoratedCommandInvoke emptyHooks emptyHooks "run" [JsVal.num 1]
        (fun _ => .ok (.plain (.str "ok")))).2 = .ok (.str "ok") ∧
    .awaited ∉ (decoratedCommandInvoke emptyHooks emptyHooks "run" [JsVal.num 1]
        (fun _ => .ok (.plain (.str "ok")))).1 ∧
    (decoratedCommandInvoke emptyHooks emptyHooks "run" [JsVal.num 1]
        (fun _ => .ok (.plain .null))).2 = .error "TypeError" := by
  have h := (success_event_carries_result emptyHooks emptyHooks "run" [JsVal.num 1]
    (fun _ => .ok (.plain (.str "ok")))).1 (.str "ok") rfl (by decide)
  have hn := (success_event_carries_result emptyHooks emptyHooks "run" [JsVal.num 1]
    (fun _ => .ok (.plain .null))).2.2 rfl
  exact ⟨h.1, h.2.2, hn.1⟩

/-- C3 counterexample: a handler for the command run that completes
without throwing and returns plain null — a plain, non-pending value —
yet the dispatch never fires the ran-successfully event (the trace holds
zero after events) and rejects with the TypeError raised by the thenable
shape-check, refuting the claim that every non-throwing handler gets the
event with its return value. -/
theorem null_return_drops_success_event :
    (decoratedCommandInvoke emptyHooks emptyHooks "run" []
        (fun _ => .ok (.plain .null))).2 = .error "TypeError" ∧
    (decoratedCommandInvoke emptyHooks emptyHooks "run" []
        (fun _ => .ok (.plain .null))).1.countP isAfterEvent = 0 := by
  exact ⟨rfl, rfl⟩

/-- C9 (amended): dispatch decoration never otherwise alters the value
the original caller observes — a handler returning a plain value other
than null, or a pending computation that resolves (to any value, null
included), hands exactly that settled value back through the dispatch
closure — except that a handler returning plain null makes the dispatch
reject with the TypeError thrown by the thenable shape-check instead of
returning null to the caller. -/
theorem dispatch_returns_handler_value (w a : String → List Nat) (c : String)
    (args : List JsVal) (handler : List JsVal → Except String HandlerResult)
    (v : JsVal)
    (hok : (handler args = .ok (.plain v) ∧ v ≠ .null) ∨
      handler args = .ok (.pending (.ok v))) :
    (decoratedCommandInvoke w a c args handler).2 = .ok v ∧
    (handler args = .ok (.plain .null) →
      (decoratedCommandInvoke w a c args handler).2 = .error "TypeError") := by
  rcases hok with ⟨h, hv⟩ | h
  · have hcr : thenableCheckCrashes v = false := by
      cases v <;> simp [thenableCheckCrashes] at hv ⊢
    refine ⟨by simp [decoratedCommandInvoke, h, hcr], fun hn => ?_⟩
    rw [h] at hn
    simp at hn
    exact absurd hn hv
  · refine ⟨by simp [decoratedCommandInvoke, h], fun hn => ?_⟩
    rw [h] at hn
    simp at hn

/-- C9 witness: a pending handler value resolves to the number 9 and the
dispatch returns exactly that value. -/
theorem dispatch_returns_handler_value_witness :
    (decoratedCommandInvoke emptyHooks emptyHooks "run" []
        (fun _ => .ok (.pending (.ok (.num 9))))).2 = .ok (.num 9) := by
  exact (dispatch_returns_handler_value emptyHooks emptyHooks "run" []
    (fun _ => .ok (.pending (.ok (.num 9)))) (.num 9) (Or.inr rfl)).1

/-- C9 counterexample: a handler for the command cmd returning plain null
completes without throwing, yet the caller observes a TypeError rejection
rather than null — the thenable shape-check throws before the return —
refuting the claim that the caller always receives the settled handler
value on a dispatch that ran the handler to completion. -/
theorem null_return_rejects_dispatch :
    (decoratedCommandInvoke emptyHooks emptyHooks "cmd" [JsVal.num 1]
        (fun _ => .ok (.plain .null))).2 = .error "TypeError" := by
  exact rfl

theorem loadOnePlugin_registerCalls (s : ExtPluginsState) (p : Plugin) :
    (loadOnePlugin s p).registerCalls = s.registerCalls ++ [p.name] := by
  unfold loadOnePlugin
  rcases p.registerThrows with _ | _
  · rcases hid : p.extensionId with _ | id
    · rfl
    · by_cases hemp : id = "" <;> simp [hid, hemp]
  · rfl

theorem loadOnePlugin_errors (s : ExtPluginsState) (p : Plugin) :
    (loadOnePlugin s p).errors =
      if p.registerThrows then s.errors ++ ["Error loading plugin " ++ p.name]
      else s.errors := by
  unfold loadOnePlugin
  rcases p.registerThrows with _ | _
  · rcases hid : p.extensionId with _ | id
    · rfl
    · by_cases hemp : id = "" <;> simp [hid, hemp]
  · rfl

theorem mem_recordExtPlugin (m : String → List String) (tag id tag' id' : String) :
    id' ∈ recordExtPlugin m tag id tag' ↔
      id' ∈ m tag' ∨ (tag' = tag ∧ id' = id) := by
  unfold recordExtPlugin
  by_cases htag : tag' = tag
  · subst htag
    by_cases hin : id ∈ m tag'
    · simp only [if_pos rfl, if_pos hin, true_and]
      constructor
      · exact Or.inl
      · rintro (h | rfl)
        · exact h
        · exact hin
    · simp [if_pos rfl, if_neg hin, List.mem_append]
  · simp [htag]

theorem loadOnePlugin_extPlugins_mem (s : ExtPluginsState) (p : Plugin)
    (tag id : String) :
    id ∈ (loadOnePlugin s p).extPlugins tag ↔
      id ∈ s.extPlugins tag ∨
      (p.registerThrows = false ∧ p.extensionId = some id ∧ id ≠ "" ∧
        pluginTag p = tag) := by
  rcases hb : p.registerThrows with _ | _
  · rcases hid : p.extensionId with _ | pid
    · simp [loadOnePlugin, hb, hid]
    · by_cases hemp : pid = ""
      · subst hemp
        have hext : (loadOnePlugin s p).extPlugins = s.extPlugins := by
          simp [loadOnePlugin, hb, hid]
        rw [hext]
        constructor
        · exact Or.inl
        · rintro (h | ⟨_, heq, hne, _⟩)
          · exact h
          · exact absurd (Option.some.inj heq).symm hne
      · have hext : (loadOnePlugin s p).extPlugins =
            recordExtPlugin s.extPlugins (pluginTag p) pid := by
          simp [loadOnePlugin, hb, hid, hemp]
        rw [hext, mem_recordExtPlugin]
        constructor
        · rintro (h | ⟨htag, rfl⟩)
          · exact Or.inl h
          · exact Or.inr ⟨rfl, rfl, hemp, htag.symm⟩
        · rintro (h | ⟨_, heq, hne, htag⟩)
          · exact Or.inl h
          · exact Or.inr ⟨htag.symm, (Option.some.inj heq).symm⟩
  · have hext : (loadOnePlugin s p).extPlugins = s.extPlugins := by
      simp [loadOnePlugin, hb]
    rw [hext]
    simp [hb]

theorem loadPlugins_registerCalls (s : ExtPluginsState) (q : List Plugin) :
    (loadPlugins s q).registerCalls = s.registerCalls ++ q.map Plugin.name := by
  induction q generalizing s with
  | nil => simp [loadPlugins]
  | cons p q ih =>
    have hstep : loadPlugins s (p :: q) = loadPlugins (loadOnePlugin s p) q := rfl
    rw [hstep, ih, loadOnePlugin_registerCalls]
    simp

theorem loadPlugins_errors (s : ExtPluginsState) (q : List Plugin) :
    (loadPlugins s q).errors =
      s.errors ++ (q.filter fun p => p.registerThrows).map
        (fun p => "Error loading plugin " ++ p.name) := by
  induction q generalizing s with
  | nil => simp [loadPlugins]
  | cons p q ih =>
    have hstep : loadPlugins s (p :: q) = loadPlugins (loadOnePlugin s p) q := rfl
    rw [hstep, ih, loadOnePlugin_errors, List.filter_cons]
    rcases hb : p.registerThrows with _ | _
    · simp
    · simp

theorem loadPlugins_extPlugins_mem (s : ExtPluginsState) (q : List Plugin)
    (tag id : String) :
    id ∈ (loadPlugins s q).extPlugins tag ↔
      id ∈ s.extPlugins tag ∨
      ∃ p ∈ q, p.registerThrows = false ∧ p.extensionId = some id ∧ id ≠ "" ∧
        pluginTag p = tag := by
  induction q generalizing s with
  | nil => simp [loadPlugins]
  | cons p q ih =>
    have hstep : loadPlugins s (p :: q) = loadPlugins (loadOnePlugin s p) q := rfl
    rw [hstep, ih, loadOnePlugin_extPlugins_mem]
    simp only [List.mem_cons, or_assoc]
    constructor
    · rintro (h | h | ⟨p', hp', hrest⟩)
      · exact Or.inl h
      · exact Or.inr ⟨p, Or.inl rfl, h⟩
      · exact Or.inr ⟨p', Or.inr hp', hrest⟩
    · rintro (h | ⟨p', hp' | hp', hrest⟩)
      · exact Or.inl h
      · subst hp'
        exact Or.inr (Or.inl hrest)
      · exact Or.inr (Or.inr ⟨p', hp', hrest⟩)

/-- C4 (amended): a load pass over a queue holding exactly one throwing
plugin still calls register on every plugin of the queue, in queue order;
it reports precisely one error, tagged with the name of the throwing
plugin; and afterwards an id is recorded under a tag exactly when it was
already recorded or some non-throwing plugin of the queue declares it as
a truthy (non-empty) extensionId with that type tag (default general) —
in particular an id only the throwing plugin declares is never recorded.
The original claim fails for a declared but empty extensionId, which the
truthiness guard skips. -/
theorem loadPlugins_isolates_single_failure (init : ExtPluginsState)
    (pre post : List Plugin) (bad : Plugin) (tag id : String)
    (hbad : bad.registerThrows = true)
    (hpre : ∀ p ∈ pre, p.registerThrows = false)
    (hpost : ∀ p ∈ post, p.registerThrows = false) :
    (loadPlugins init (pre ++ bad :: post)).registerCalls =
      init.registerCalls ++ (pre ++ bad :: post).map Plugin.name ∧
    (loadPlugins init (pre ++ bad :: post)).errors =
      init.errors ++ ["Error loading plugin " ++ bad.name] ∧
    (id ∈ (loadPlugins init (pre ++ bad :: post)).extPlugins tag ↔
      id ∈ init.extPlugins tag ∨
      ∃ p, (p ∈ pre ∨ p ∈ post) ∧ p.extensionId = some id ∧ id ≠ "" ∧
        pluginTag p = tag) := by
  refine ⟨loadPlugins_registerCalls _ _, ?_, ?_⟩
  · rw [loadPlugins_errors]
    have hfil : ((pre ++ bad :: post).filter fun p => p.registerThrows) = [bad] := by
      rw [List.filter_append, List.filter_cons]
      have h1 : (pre.filter fun p => p.registerThrows) = [] :=
        List.filter_eq_nil_iff.2 (fun p hp => by simp [hpre p hp])
      have h2 : (post.filter fun p => p.registerThrows) = [] :=
        List.filter_eq_nil_iff.2 (fun p hp => by simp [hpost p hp])
      simp [h1, h2, hbad]
    rw [hfil]
    rfl
  · rw [loadPlugins_extPlugins_mem]
    constructor
    · rintro (h | ⟨p, hp, hthrow, hrest⟩)
      · exact Or.inl h
      · rcases List.mem_append.1 hp with hp | hp
        · exact Or.inr ⟨p, Or.inl hp, hrest⟩
        · rcases List.mem_cons.1 hp with rfl | hp
          · rw [hbad] at hthrow
            exact absurd hthrow (by simp)
          · exact Or.inr ⟨p, Or.inr hp, hrest⟩
    · rintro (h | ⟨p, hp | hp, hrest⟩)
      · exact Or.inl h
      · exact Or.inr ⟨p, List.mem_append.2 (Or.inl hp), hpre p hp, hrest⟩
      · exact Or.inr ⟨p, List.mem_append.2 (Or.inr (List.mem_cons.2 (Or.inr hp))),
          hpost p hp, hrest⟩

/-- Plugin fixture: a non-throwing plugin recording goodExt under the
default type tag. -/
def goodPlugin : Plugin :=
  { name := "good", extensionId := some "goodExt", type' := none,
    registerThrows := false }

/-- Plugin fixture: a non-throwing plugin declaring the empty string as
its extensionId. -/
def emptyIdPlugin : Plugin :=
  { name := "empty", extensionId := some "", type' := none,
    registerThrows := false }

/-- Plugin fixture: a plugin whose register call throws. -/
def badPlugin : Plugin :=
  { name := "bad", extensionId := some "badExt", type' := none,
    registerThrows := true }

/-- C4 witness: a queue of one recording plugin and one throwing plugin —
the good id ends up recorded under general. -/
theorem loadPlugins_isolates_single_failure_witness :
    "goodExt" ∈
      (loadPlugins emptyExtState [goodPlugin, badPlugin]).extPlugins "general" := by
  have h := loadPlugins_isolates_single_failure emptyExtState [goodPlugin] []
    badPlugin "general" "goodExt" rfl
    (by intro p hp; simp at hp; subst hp; rfl) (by intro p hp; simp at hp)
  exact h.2.2.mpr (Or.inr ⟨goodPlugin, Or.inl (by simp), rfl, by decide, rfl⟩)

/-- C4 counterexample: a queue with exactly one throwing plugin where the
non-throwing plugin declares the empty string as its extensionId — the
declared id is never recorded (the truthiness check skips it), refuting
the claim that each non-throwing plugin with a declared extensionId gets
it recorded. -/
theorem extensionId_empty_string_not_recorded :
    emptyIdPlugin.extensionId = some "" ∧
    emptyIdPlugin.registerThrows = false ∧
    badPlugin.registerThrows = true ∧
    (loadPlugins emptyExtState [emptyIdPlugin, badPlugin]).extPlugins "general"
      = [] := by
  exact ⟨rfl, rfl, rfl, rfl⟩

end Extension

namespace ResultsPanel

/-- Result fixture matching the pagination scenario of the spec: queryType
select, queryParams the token q:a, pageSize undefined, requestId 7. -/
def sampleResult : IResult :=
  { requestId := 7, resultId := "res1", connId := "conn1",
    baseQuery := "SELECT 1", query := some "SELECT 1 LIMIT 10",
    queryType := some "select", queryParams := some "q:a",
    pageSize := none, page := some 1, error := none, messages := [] }

/-- Panel state fixture with one loaded tab and loading already false. -/
def sampleLoadedState : QueryResultsState :=
  { loading := false, error := none, resultTabs := [sampleResult], activeTab := 0 }

/-- State fixture whose active tab has pageSize zero. -/
def pageZeroState : QueryResultsState :=
  { loading := false, error := none,
    resultTabs := [{ sampleResult with pageSize := some 0 }], activeTab := 0 }

/-- C5 (code bug): the reducer RESET branch does return the initial state
for every prior state, exactly as the claim demands, but the reset
message never reaches it — messagesHandler routes reset through
resetRequest, which dispatches RESULTS_RECEIVED with no payload, a
no-op merge; so a panel state that differs from the initial one is left
unchanged by an inbound reset message, contradicting the claim. -/
theorem reset_message_leaves_state_unchanged :
    (∀ s, reducer s .RESET = initialState) ∧
    messagesHandler sampleLoadedState (some "reset") [] =
      [.messageLogged "reset", .dispatched (.RESULTS_RECEIVED none)] ∧
    applyEffects sampleLoadedState
      (messagesHandler sampleLoadedState (some "reset") []) = sampleLoadedState ∧
    sampleLoadedState ≠ initialState := by
  refine ⟨fun s => rfl, rfl, rfl, by decide⟩

/-- C6 counterexample: exportResults on a loaded state issues exactly one
outbound call yet dispatches no reducer action at all, so loading stays
false until the host responds — refuting the claim that every outbound
call sets loading to true. -/
theorem export_call_does_not_set_loading :
    countCallMsgs (exportResults sampleLoadedState none).effects = 1 ∧
    countDispatched (exportResults sampleLoadedState none).effects = 0 ∧
    (applyEffects sampleLoadedState
      (exportResults sampleLoadedState none).effects).loading = false := by
  exact ⟨rfl, rfl, rfl⟩

/-- C6 (amended): the re-run and pagination handlers set loading to true
in the panel state within the same handler turn whenever they run at all,
but the export handler dispatches no reducer action and leaves the state
untouched. -/
theorem rerun_and_pagination_set_loading (s : QueryResultsState) (p : Nat)
    (choice : Option MenuAction) :
    ((reRunQuery s).effects ≠ [] →
      (applyEffects s (reRunQuery s).effects).loading = true) ∧
    (applyEffects s (changePage s p).effects).loading = true ∧
    countDispatched (exportResults s choice).effects = 0 ∧
    applyEffects s (exportResults s choice).effects = s := by
  rcases hr : getCurrentResult s with _ | r
  · have hcp : s.resultTabs[s.activeTab]? = none := by
      simpa [getCurrentResult, List.get?_eq_getElem?] using hr
    refine ⟨fun hne => absurd ?_ hne, ?_, ?_, ?_⟩
    · simp [reRunQuery, hr]
    · simp [changePage, hcp, applyEffects, reducer, setAction, spreadPatch]
    · simp [exportResults, hr, countDispatched]
    · simp [exportResults, hr, applyEffects]
  · have hcp : s.resultTabs[s.activeTab]? = some r := by
      simpa [getCurrentResult, List.get?_eq_getElem?] using hr
    refine ⟨fun _ => ?_, ?_, ?_, ?_⟩
    · rcases ht : strTruthy r.queryType with _ | _ <;>
        simp [reRunQuery, hr, ht, applyEffects, reducer, setAction, spreadPatch]
    · simp [changePage, hcp, applyEffects, reducer, setAction, spreadPatch]
    · simp [exportResults, hr, countDispatched, List.countP_cons]
    · simp [exportResults, hr, applyEffects]

/-- C6 witness: on the loaded fixture both re-run and pagination leave
loading true and export leaves the state unchanged. -/
theorem rerun_and_pagination_set_loading_witness :
    (applyEffects sampleLoadedState (reRunQuery sampleLoadedState).effects).loading
      = true ∧
    (applyEffects sampleLoadedState
      (changePage sampleLoadedState 3).effects).loading = true ∧
    applyEffects sampleLoadedState
      (exportResults sampleLoadedState none).effects = sampleLoadedState := by
  have h := rerun_and_pagination_set_loading sampleLoadedState 3 none
  exact ⟨h.1 (by decide), h.2.1, h.2.2.2⟩

end ResultsPanel

namespace ResultsPanel

/-- C7 counterexample: with an active result of pageSize zero the outbound
pagination call carries pageSize 50, not 0 — the source uses the or-else
operator, which treats 0 as absent, refuting the claim that pageSize 0 is
forwarded as 0. -/
theorem changePage_pageSize_zero_sends_fifty :
    (changePage pageZeroState 3).effects =
      [.dispatched (.SET { loading := some true }),
       .sent (.call "sqltools.select"
         (some [.qp (some "q:a"),
                .opts { page := some 3, pageSize := some 50,
                        requestId := some 7 }]))] := by
  rfl

/-- C7 (amended): for every state with an active result, changePage sends
exactly one outbound call whose args are the stored queryParams and an
options object with the requested page, the requestId of the active
result and pageSize equal to the stored pageSize unless that is undefined
or 0, in which case 50 is sent (JS or-else, not nullish coalescing). -/
theorem changePage_sends_single_call (s : QueryResultsState) (r : IResult)
    (p : Nat) (hr : s.resultTabs[s.activeTab]? = some r) :
    (changePage s p).effects =
      [.dispatched (.SET { loading := some true }),
       .sent (.call (EXT_NAMESPACE ++ "." ++ jsTemplate r.queryType)
         (some [.qp r.queryParams,
                .opts { page := some p, pageSize := some (jsOr50 r.pageSize),
                        requestId := some r.requestId }]))] ∧
    countCallMsgs (changePage s p).effects = 1 ∧
    (changePage s p).threw = none := by
  refine ⟨?_, ?_, ?_⟩ <;> simp [changePage, hr, countCallMsgs, setAction]

/-- C7 witness: the spec scenario — active result with queryType select,
queryParams q:a, pageSize undefined, requestId 7; changePage 3 produces
one call with page 3, pageSize 50 and requestId 7. -/
theorem changePage_sends_single_call_witness :
    (changePage sampleLoadedState 3).effects =
      [.dispatched (.SET { loading := some true }),
       .sent (.call "sqltools.select"
         (some [.qp (some "q:a"),
                .opts { page := some 3, pageSize := some 50,
                        requestId := some 7 }]))] ∧
    countCallMsgs (changePage sampleLoadedState 3).effects = 1 := by
  have h := changePage_sends_single_call sampleLoadedState sampleResult 3 rfl
  exact ⟨h.1.trans (by rfl), h.2.1⟩

/-- C8 counterexample: on a state with no result tabs the pagination
handler does not return gracefully — it dispatches its loading update and
then raises a TypeError while building the outbound message, refuting the
claim that all three handlers treat the absent active tab gracefully. -/
theorem changePage_raises_on_empty_tabs :
    initialState.resultTabs = [] ∧
    (changePage initialState 1).threw = some "TypeError" ∧
    (changePage initialState 1).effects =
      [.dispatched (.SET { loading := some true })] := by
  exact ⟨rfl, rfl, rfl⟩

/-- C8 (amended): when resultTabs is empty the re-run and export handlers
return gracefully — no effect, no outbound message, no error — while the
pagination handler, which lacks their guard, dispatches its loading
update, sends no outbound message, and raises a TypeError (it is only
reachable from the table component, rendered when an active tab exists). -/
theorem empty_tabs_handler_behavior (s : QueryResultsState)
    (choice : Option MenuAction) (p : Nat) (hempty : s.resultTabs = []) :
    exportResults s choice = { effects := [], threw := none } ∧
    reRunQuery s = { effects := [], threw := none } ∧
    (changePage s p).threw = some "TypeError" ∧
    countCallMsgs (changePage s p).effects = 0 := by
  have hcur : getCurrentResult s = none := by
    simp [getCurrentResult, hempty]
  have hcp : s.resultTabs[s.activeTab]? = none := by
    simp [hempty]
  refine ⟨?_, ?_, ?_, ?_⟩
  · simp [exportResults, hcur]
  · simp [reRunQuery, hcur]
  · simp [changePage, hcp]
  · simp [changePage, hcp, countCallMsgs]

/-- C8 witness: the initial state has no tabs; export and re-run do
nothing and pagination raises. -/
theorem empty_tabs_handler_behavior_witness :
    exportResults initialState none = { effects := [], threw := none } ∧
    reRunQuery initialState = { effects := [], threw := none } ∧
    (changePage initialState 1).threw = some "TypeError" := by
  have h := empty_tabs_handler_behavior initialState none 1 rfl
  exact ⟨h.1, h.2.1, h.2.2.1⟩

/-- C10: an inbound message whose action is missing or empty produces no
effect at all — no reducer dispatch, no outbound message and no log line,
so the panel state is unchanged — whereas a non-empty unknown action is
logged on receipt and again at warning level. -/
theorem falsy_action_ignored (st : QueryResultsState) (payload : List IResult)
    (a : String) (ha0 : a ≠ "") (h1 : a ≠ "queryResults") (h2 : a ≠ "reset")
    (h3 : a ≠ "getState") :
    messagesHandler st none payload = [] ∧
    messagesHandler st (some "") payload = [] ∧
    applyEffects st (messagesHandler st none payload) = st ∧
    messagesHandler st (some a) payload = [.messageLogged a, .warnLogged a] := by
  refine ⟨rfl, rfl, rfl, ?_⟩
  simp [messagesHandler, ha0, h1, h2, h3]

/-- C10 witness: a missing action does nothing and an unknown action
named noSuchAction is logged twice. -/
theorem falsy_action_ignored_witness :
    messagesHandler initialState none [] = [] ∧
    messagesHandler initialState (some "") [] = [] ∧
    messagesHandler initialState (some "noSuchAction") [] =
      [.messageLogged "noSuchAction", .warnLogged "noSuchAction"] := by
  have h := falsy_action_ignored initialState [] "noSuchAction"
    (by decide) (by decide) (by decide) (by decide)
  exact ⟨h.1, h.2.1, h.2.2.2⟩

end ResultsPanel
